import Mathlib

/-!
Verification of the MedRep Intelligence Hub repository: a shallow embedding of
the response normalizer (`deepExtractResponse`, `safeParseResult`, `safeArray`),
the markdown-subset renderer, and the knowledge-base proxy route handlers
(upload fallback chain, GET fall-through, two-phase delete), together with
theorems settling the specification's claims about them.

Modelling conventions:
- JavaScript values are modelled by the inductive `JsVal` (with a distinguished
  `undef` for `undefined`); property access on a non-object yields `undef`,
  as in the source all accessed receivers are either objects or guarded.
- `JSON.parse` is modelled by the executable `jsonParse`; JSON numbers are
  modelled as integers (fractional/exponent literals are rejected by the model).
- Code that can throw (`.toLowerCase()` on a non-string) is modelled with
  `Option`: `none` means the original function raises.
-/

namespace MedRag

/-- A JavaScript runtime value: `undefined`, `null`, booleans, numbers
(modelled as integers), strings, arrays and plain objects. -/
inductive JsVal where
  | undef
  | jsNull
  | bool (b : Bool)
  | num (n : Int)
  | str (s : String)
  | arr (elems : List JsVal)
  | obj (fields : List (String × JsVal))

/-- JavaScript truthiness: `undefined`, `null`, `false`, `0` and `""` are
falsy; every other value (including all arrays and objects) is truthy. -/
def truthy : JsVal → Bool
  | .undef => false
  | .jsNull => false
  | .bool b => b
  | .num n => !(n == 0)
  | .str s => !(s == "")
  | .arr _ => true
  | .obj _ => true

/-- Property read `v[k]`: on plain objects the first binding of the key wins
(updates are modelled by prepending); on every other value the named
properties read by the source are `undefined`. -/
def jget : JsVal → String → JsVal
  | .obj fields, k =>
    match fields.find? (fun f => f.1 == k) with
    | some f => f.2
    | none => .undef
  | _, _ => .undef

mutual

/-- The JavaScript `String(v)` conversion for the values the source passes to
it: primitives print their usual text, arrays join their stringified elements
with commas (with `null`/`undefined` elements printing as empty), and plain
objects print as `"[object Object]"`. -/
def jsToString : JsVal → String
  | .undef => "undefined"
  | .jsNull => "null"
  | .bool true => "true"
  | .bool false => "false"
  | .num n => toString n
  | .str s => s
  | .arr es => String.intercalate "," (jsToStringArrElems es)
  | .obj _ => "[object Object]"

/-- Stringify the elements of an array for `Array.prototype.toString`:
`null` and `undefined` become the empty string. -/
def jsToStringArrElems : List JsVal → List String
  | [] => []
  | .undef :: rest => "" :: jsToStringArrElems rest
  | .jsNull :: rest => "" :: jsToStringArrElems rest
  | e :: rest => jsToString e :: jsToStringArrElems rest

end

/-- ASCII lower-casing of a string, modelling `String.prototype.toLowerCase`
on the ASCII data this system handles. -/
def jsToLower (s : String) : String := ⟨s.data.map Char.toLower⟩

/-- The JavaScript `x.toLowerCase()` call: defined only on strings; on any
other receiver the original program throws a `TypeError`, modelled as `none`. -/
def toLowerCaseJs : JsVal → Option String
  | .str s => some (jsToLower s)
  | _ => none

/-- The truthiness-based default `v || dflt`. -/
def orTruthy (v dflt : JsVal) : JsVal := if truthy v then v else dflt

/-- First truthy value of a list, else the final default (models a chain of
`||`). -/
def firstTruthyJs : List JsVal → JsVal → JsVal
  | [], dflt => dflt
  | v :: rest, dflt => if truthy v then v else firstTruthyJs rest dflt

end MedRag

namespace MedRag

/-! JSON parsing (the model of `JSON.parse`). Parse failure models a thrown
`SyntaxError`. -/

/-- JSON insignificant whitespace. -/
def isJsonWs (c : Char) : Bool := c == ' ' || c == '\t' || c == '\n' || c == '\r'

/-- Skip insignificant whitespace. -/
def skipWs (cs : List Char) : List Char := cs.dropWhile isJsonWs

/-- Value of a hexadecimal digit. -/
def hexVal (c : Char) : Option Nat :=
  if '0' ≤ c && c ≤ '9' then some (c.toNat - 48)
  else if 'a' ≤ c && c ≤ 'f' then some (c.toNat - 87)
  else if 'A' ≤ c && c ≤ 'F' then some (c.toNat - 55)
  else none

/-- Parse the body of a JSON string (after the opening quote), returning its
characters and the remaining input after the closing quote. -/
def parseStrChars : Nat → List Char → Option (List Char × List Char)
  | 0, _ => none
  | _ + 1, [] => none
  | fuel + 1, c :: rest =>
    if c == '"' then some ([], rest)
    else if c == '\\' then
      match rest with
      | [] => none
      | e :: rest2 =>
        let push : Char → List Char → Option (List Char × List Char) := fun ch rs =>
          (parseStrChars fuel rs).map (fun p => (ch :: p.1, p.2))
        if e == '"' then push '"' rest2
        else if e == '\\' then push '\\' rest2
        else if e == '/' then push '/' rest2
        else if e == 'b' then push '\x08' rest2
        else if e == 'f' then push '\x0c' rest2
        else if e == 'n' then push '\n' rest2
        else if e == 'r' then push '\r' rest2
        else if e == 't' then push '\t' rest2
        else if e == 'u' then
          match rest2 with
          | h1 :: h2 :: h3 :: h4 :: rest3 =>
            match hexVal h1, hexVal h2, hexVal h3, hexVal h4 with
            | some a, some b, some c1, some d =>
              push (Char.ofNat (((a * 16 + b) * 16 + c1) * 16 + d)) rest3
            | _, _, _, _ => none
          | _ => none
        else none
    else if c.toNat < 32 then none
    else (parseStrChars fuel rest).map (fun p => (c :: p.1, p.2))

/-- Digits to a natural number. -/
def digitsToNat (ds : List Char) : Nat :=
  ds.foldl (fun a c => a * 10 + (c.toNat - 48)) 0

/-- Parse a JSON number. Fractional and exponent literals are not modelled
(numbers are integers in this embedding). -/
def parseNum (cs : List Char) : Option (Int × List Char) :=
  let sign : Bool × List Char := match cs with
    | '-' :: r => (true, r)
    | _ => (false, cs)
  let p := sign.2.span Char.isDigit
  match p.1 with
  | [] => none
  | d :: ds =>
    if d == '0' && !ds.isEmpty then none
    else
      match p.2 with
      | c :: _ =>
        if c == '.' || c == 'e' || c == 'E' then none
        else some (if sign.1 then -(digitsToNat (d :: ds) : Int) else (digitsToNat (d :: ds) : Int), p.2)
      | [] => some (if sign.1 then -(digitsToNat (d :: ds) : Int) else (digitsToNat (d :: ds) : Int), p.2)

/-- Match a literal suffix such as `rue` of `true`. -/
def takeLit : List Char → List Char → Option (List Char)
  | [], cs => some cs
  | l :: ls, c :: cs => if c == l then takeLit ls cs else none
  | _ :: _, [] => none

mutual

/-- Parse one JSON value, returning it with the unconsumed input. -/
def parseVal : Nat → List Char → Option (JsVal × List Char)
  | 0, _ => none
  | fuel + 1, cs =>
    match skipWs cs with
    | [] => none
    | c :: rest =>
      if c == '"' then
        (parseStrChars (rest.length + 1) rest).map (fun p => (JsVal.str ⟨p.1⟩, p.2))
      else if c == '\x7b' then
        match skipWs rest with
        | '\x7d' :: rest2 => some (JsVal.obj [], rest2)
        | rest2 => (parseMembers fuel rest2).map (fun p => (JsVal.obj p.1, p.2))
      else if c == '[' then
        match skipWs rest with
        | ']' :: rest2 => some (JsVal.arr [], rest2)
        | rest2 => (parseItems fuel rest2).map (fun p => (JsVal.arr p.1, p.2))
      else if c == 't' then (takeLit ['r', 'u', 'e'] rest).map (fun r => (JsVal.bool true, r))
      else if c == 'f' then (takeLit ['a', 'l', 's', 'e'] rest).map (fun r => (JsVal.bool false, r))
      else if c == 'n' then (takeLit ['u', 'l', 'l'] rest).map (fun r => (JsVal.jsNull, r))
      else (parseNum (c :: rest)).map (fun p => (JsVal.num p.1, p.2))

/-- Parse the members of a non-empty JSON object, up to and including the
closing brace. -/
def parseMembers : Nat → List Char → Option (List (String × JsVal) × List Char)
  | 0, _ => none
  | fuel + 1, cs =>
    match skipWs cs with
    | '"' :: rest =>
      (parseStrChars (rest.length + 1) rest).bind (fun pk =>
        match skipWs pk.2 with
        | ':' :: cs3 =>
          (parseVal fuel cs3).bind (fun pv =>
            match skipWs pv.2 with
            | ',' :: cs5 =>
              (parseMembers fuel cs5).map (fun pm => ((⟨pk.1⟩, pv.1) :: pm.1, pm.2))
            | '\x7d' :: cs5 => some ([(⟨pk.1⟩, pv.1)], cs5)
            | _ => none)
        | _ => none)
    | _ => none

/-- Parse the items of a non-empty JSON array, up to and including the
closing bracket. -/
def parseItems : Nat → List Char → Option (List JsVal × List Char)
  | 0, _ => none
  | fuel + 1, cs =>
    (parseVal fuel cs).bind (fun pv =>
      match skipWs pv.2 with
      | ',' :: cs2 => (parseItems fuel cs2).map (fun pi => (pv.1 :: pi.1, pi.2))
      | ']' :: cs2 => some ([pv.1], cs2)
      | _ => none)

end

/-- The model of `JSON.parse`: parse one value and require only whitespace to
remain; `none` models a thrown `SyntaxError`. -/
def jsonParse (s : String) : Option JsVal :=
  match parseVal (s.data.length + 1) s.data with
  | some p => if (skipWs p.2).isEmpty then some p.1 else none
  | none => none

end MedRag

namespace MedRag

/-! The response normalizer of `src/app/page.tsx` (`safeParseResult`,
`deepExtractResponse`, its inner `safeArray`). -/

/-- Does the string start with an opening brace (`result.answer.startsWith`)? -/
def startsWithBrace (s : String) : Bool :=
  match s.data with
  | '\x7b' :: _ => true
  | _ => false

/-- Spread merge of two values, `\x7b...a, ...b\x7d`: when both are objects the
fields of `b` override those of `a` (modelled by prepending, since `jget`
takes the first binding). In the source this is only reached with two
objects. -/
def spreadTwo (a b : JsVal) : JsVal :=
  match a, b with
  | .obj fa, .obj fb => .obj (fb ++ fa)
  | _, _ => a

/-- The `defaults` record of `deepExtractResponse`, as the object literal used
in the spreads `\x7b ...defaults, answer: x \x7d`. -/
def defaultFields : List (String × JsVal) :=
  [("answer", .str ""), ("sources_consulted", .arr []),
   ("compliance_status", .str "compliant"), ("domains_accessed", .arr []),
   ("confidence", .str "medium"), ("flags", .arr [])]

/-- The object `\x7b ...defaults, answer: v \x7d`. -/
def withAnswer (v : JsVal) : JsVal := .obj (("answer", v) :: defaultFields)

/-- `safeParseResult` of `src/app/page.tsx:109`: falsy input gives `\x7b\x7d`; a
string is `JSON.parse`d (on failure it becomes `\x7b answer: input \x7d`); an
object whose `answer` is a string starting with `\x7b` has that inner JSON
parsed and merged over it; any other value becomes
`\x7b answer: String(value) \x7d`. -/
def safeParseResult (result : JsVal) : JsVal :=
  if !truthy result then .obj []
  else
    match result with
    | .str s =>
      match jsonParse s with
      | some v => v
      | none => .obj [("answer", .str s)]
    | .obj _ =>
      (match jget result "answer" with
       | .str a =>
         if startsWithBrace a then
           match jsonParse a with
           | some inner => spreadTwo result inner
           | none => result
         else result
       | _ => result)
    | .arr _ => result
    | other => .obj [("answer", .str (jsToString other))]

/-- The fixed priority list of alternate answer keys probed by
`deepExtractResponse`. -/
def textKeys : List String :=
  ["text", "response", "content", "message", "answer_text", "summary", "output"]

/-- The `textKeys` probe: the first key whose value on `d` is a truthy string
(`data[key] && typeof data[key] === 'string'`). -/
def probeTextKeys (d : JsVal) : Option JsVal :=
  (textKeys.map (jget d)).find? (fun v =>
    match v with
    | .str s => !(s == "")
    | _ => false)

/-- The mutation `data.answer = v` on the candidate object (only reached when
the candidate is an object). -/
def setAnswer (d : JsVal) (v : JsVal) : JsVal :=
  match d with
  | .obj fs => .obj (("answer", v) :: fs)
  | _ => d

/-- The inner `safeArray` coercion of `deepExtractResponse`: arrays stringify
elementwise; strings that JSON-parse to an array stringify that array's
elements; other non-empty strings become a singleton; everything else is
empty. -/
def safeArray (val : JsVal) : List String :=
  match val with
  | .arr es => es.map jsToString
  | .str s =>
    (match jsonParse s with
     | some (.arr es) => es.map jsToString
     | _ => if !(s == "") then [s] else [])
  | _ => []

/-- The record returned by `deepExtractResponse`. The `answer` field keeps
the raw JavaScript value selected by the truthiness chain (the source's
type annotation says string, but the runtime value need not be one). -/
structure ParsedResponse where
  answer : JsVal
  sources_consulted : List String
  compliance_status : String
  domains_accessed : List String
  confidence : String
  flags : List String

/-- The all-default `ParsedResponse`. -/
def defaultParsed : ParsedResponse :=
  ⟨.str "", [], "compliant", [], "medium", []⟩

/-- Path 1 of `deepExtractResponse`: `data` after the
`responseObj.result` branch (`null` when not taken). -/
def data1of (j : JsVal) : JsVal :=
  let responseObj := jget j "response"
  if truthy responseObj then
    if truthy (jget responseObj "result") then
      safeParseResult (jget responseObj "result")
    else .jsNull
  else .jsNull

/-- The `responseObj.message` branch: runs when `data` has no truthy answer
and `responseObj.message` is truthy; adopts the parsed message when it has an
answer, else adopts a non-empty string message verbatim. -/
def data2of (j : JsVal) : JsVal :=
  let responseObj := jget j "response"
  let data := data1of j
  if truthy responseObj && !(truthy data && truthy (jget data "answer")) &&
      truthy (jget responseObj "message") then
    let msgParsed := safeParseResult (jget responseObj "message")
    if truthy (jget msgParsed "answer") then msgParsed
    else
      match jget responseObj "message" with
      | .str s => if s.length > 0 then withAnswer (.str s) else data
      | _ => data
  else data

/-- The `textKeys` probe step: when `data` is truthy but has no truthy
answer, adopt the first truthy string among the alternate keys. -/
def data3of (j : JsVal) : JsVal :=
  let responseObj := jget j "response"
  let data := data2of j
  if truthy responseObj && truthy data && !truthy (jget data "answer") then
    match probeTextKeys data with
    | some v => setAnswer data v
    | none => data
  else data

/-- Path 2 of `deepExtractResponse`: top-level `answer` / `text` / `message`
fields of the payload itself. -/
def data4of (j : JsVal) : JsVal :=
  let data := data3of j
  if !(truthy data && truthy (jget data "answer")) then
    if truthy (jget j "answer") then safeParseResult j
    else if truthy (jget j "text") then withAnswer (jget j "text")
    else
      match jget j "message" with
      | .str s => if !(s == "") then withAnswer (.str s) else data
      | _ => data
  else data

/-- Path 3 of `deepExtractResponse`: the `raw_response` fallback. -/
def data5of (j : JsVal) : JsVal :=
  let data := data4of j
  if !(truthy data && truthy (jget data "answer")) && truthy (jget j "raw_response") then
    let rawParsed := safeParseResult (jget j "raw_response")
    if truthy (jget rawParsed "answer") then rawParsed
    else
      match jget j "raw_response" with
      | .str s => withAnswer (.str s)
      | _ => data
  else data

/-- The candidate object chosen by the ordered fallback of
`deepExtractResponse` (the final value of the mutable `data`). -/
def extractData (j : JsVal) : JsVal := data5of j

/-- The final answer selection
`data.answer || data.text || data.response || data.content || data.message || ''`. -/
def answerChain (d : JsVal) : JsVal :=
  firstTruthyJs
    [jget d "answer", jget d "text", jget d "response", jget d "content", jget d "message"]
    (.str "")

/-- `deepExtractResponse` of `src/app/page.tsx:131`: the ordered-fallback
normalizer. `none` models a thrown `TypeError` (the unguarded
`.toLowerCase()` calls on truthy non-string `compliance_status` /
`confidence` fields). -/
def deepExtractResponse (apiResult : JsVal) : Option ParsedResponse :=
  if !truthy apiResult then some defaultParsed
  else
    let data := extractData apiResult
    if !truthy data then some defaultParsed
    else
      match toLowerCaseJs (orTruthy (jget data "compliance_status") (.str "compliant")),
            toLowerCaseJs (orTruthy (jget data "confidence") (.str "medium")) with
      | some cs, some cf =>
        some { answer := answerChain data
               sources_consulted := safeArray (jget data "sources_consulted")
               compliance_status := cs
               domains_accessed := safeArray (jget data "domains_accessed")
               confidence := cf
               flags := safeArray (jget data "flags") }
      | _, _ => none

end MedRag

namespace MedRag

/-! Stage-level description of the normalizer's fallback order, used to state
the first-match property. Each stage is an independent function of the raw
payload. -/

/-- Stage: the parsed `response.result` candidate carries a truthy `answer`. -/
def stageResultAnswer (j : JsVal) : Option JsVal :=
  let r := jget (jget j "response") "result"
  if truthy r then
    let d := safeParseResult r
    if truthy (jget d "answer") then some (jget d "answer") else none
  else none

/-- Stage: `response.message` supplies the answer, either through its parsed
form's `answer` or verbatim as a non-empty string. -/
def stageMessage (j : JsVal) : Option JsVal :=
  let m := jget (jget j "response") "message"
  if truthy m then
    let msgParsed := safeParseResult m
    if truthy (jget msgParsed "answer") then some (jget msgParsed "answer")
    else
      match m with
      | .str s => if !(s == "") then some (.str s) else none
      | _ => none
  else none

/-- Stage: the alternate-key probe of the parsed `response.result` candidate
(the first truthy string among `textKeys`). -/
def stageTextKeys (j : JsVal) : Option JsVal :=
  let r := jget (jget j "response") "result"
  if truthy r then
    let d := safeParseResult r
    if truthy d && !truthy (jget d "answer") then probeTextKeys d else none
  else none

/-- Stage: top-level `answer` / `text` / `message` fields of the payload. -/
def stageTopLevel (j : JsVal) : Option JsVal :=
  if truthy (jget j "answer") then
    let d := safeParseResult j
    if truthy (jget d "answer") then some (jget d "answer") else none
  else if truthy (jget j "text") then some (jget j "text")
  else
    match jget j "message" with
    | .str s => if !(s == "") then some (.str s) else none
    | _ => none

/-- Stage: the `raw_response` fallback. -/
def stageRaw (j : JsVal) : Option JsVal :=
  let raw := jget j "raw_response"
  if truthy raw then
    let rawParsed := safeParseResult raw
    if truthy (jget rawParsed "answer") then some (jget rawParsed "answer")
    else
      match raw with
      | .str s => some (.str s)
      | _ => none
  else none

/-- The first matching stage, in the order the code actually probes them:
`response.result`'s own answer, then `response.message`, then the
alternate-key probe of the `response.result` candidate, then top-level
fields, then `raw_response`. -/
def stagesFirst (j : JsVal) : Option JsVal :=
  (stageResultAnswer j).orElse fun _ =>
    (stageMessage j).orElse fun _ =>
      (stageTextKeys j).orElse fun _ =>
        (stageTopLevel j).orElse fun _ => stageRaw j

/-- Modelled from the spec, section 4.1 step 1: the resolution of the
`response.result` extraction path as the spec words it — parse the value
(merging nested stringified JSON), take its `answer`, and if there is none
probe the alternate keys and adopt the first non-empty string. Used to
compare the spec's path order with the code's. -/
def specPathOneResolved (j : JsVal) : Option JsVal :=
  let r := jget (jget j "response") "result"
  if truthy r then
    let d := safeParseResult r
    if truthy (jget d "answer") then some (jget d "answer")
    else probeTextKeys d
  else none

end MedRag

namespace MedRag

/-! The markdown-subset renderer of `src/app/page.tsx` (`renderMarkdown`),
modelled as a line-by-line fold producing display blocks. Inline formatting
(`formatInline`) is presentational; blocks carry the text handed to it. -/

/-- JavaScript `String.prototype.trim` on the ASCII whitespace this system
handles. -/
def jsTrim (s : String) : String :=
  ⟨(s.data.dropWhile (fun c => c.isWhitespace)).reverse.dropWhile (fun c => c.isWhitespace) |>.reverse⟩

/-- `text.split('\n')` (keeps empty segments, including a trailing one). -/
def splitNl (s : String) : List String :=
  (s.data.foldr
    (fun c acc =>
      if c == '\n' then [] :: acc
      else match acc with
        | seg :: rest => (c :: seg) :: rest
        | [] => [[c]])
    [[]]).map (fun cs => (⟨cs⟩ : String))

/-- Does the trimmed line open or close a fenced code block
(`line.trim().startsWith('\x60\x60\x60')`)? -/
def fenceLine (line : String) : Bool :=
  match (jsTrim line).data with
  | '\x60' :: '\x60' :: '\x60' :: _ => true
  | _ => false

/-- Is the trimmed line a horizontal rule (three or more repeated `-`, `*`
or `_` and nothing else)? -/
def hrLine (line : String) : Bool :=
  match (jsTrim line).data with
  | c :: rest =>
    (c == '-' || c == '*' || c == '_') && rest.length + 1 ≥ 3 && rest.all (fun d => d == c)
  | [] => false

/-- Leading-marker match for an unordered list item
(`/^(\s*)([-*+])\s(.+)/`): leading whitespace, a `-`/`*`/`+` marker, one
whitespace character, then non-empty content. -/
def ulMatch (line : String) : Option (Nat × String) :=
  let p := line.data.span (fun c => c.isWhitespace)
  match p.2 with
  | m :: w :: rest =>
    if (m == '-' || m == '*' || m == '+') && w.isWhitespace && !rest.isEmpty then
      some (p.1.length, ⟨rest⟩)
    else none
  | _ => none

/-- Full-match for an ordered list item (`/^(\s*)\d+\.\s(.+)/`); `none` also
covers lines where only the `test` regex would pass (no content after the
dot-space). -/
def olMatch (line : String) : Option (Nat × String) :=
  let p := line.data.span (fun c => c.isWhitespace)
  let q := p.2.span (fun c => c.isDigit)
  match q.1, q.2 with
  | _ :: _, '.' :: w :: rest =>
    if w.isWhitespace && !rest.isEmpty then some (p.1.length, ⟨rest⟩) else none
  | _, _ => none

/-- Drop the first `n` characters of a line (`line.slice(n)`). -/
def sliceFrom (s : String) (n : Nat) : String := ⟨s.data.drop n⟩

/-- A rendered display block. Heading constructors are numbered by the
`#` marker count of the source line. -/
inductive MdBlock where
  | heading1 (text : String)
  | heading2 (text : String)
  | heading3 (text : String)
  | heading4 (text : String)
  | rule
  | blockquote (text : String)
  | codeBlock (ls : List String)
  | ulist (items : List (Nat × String))
  | olist (items : List (Nat × String))
  | blankLine
  | paragraph (text : String)

/-- List kinds tracked by the renderer. -/
inductive ListKind where
  | ul
  | ol
deriving DecidableEq

/-- The renderer's loop state: emitted blocks, the open-code-fence flag with
its accumulated lines, and the accumulating list items with their kind. -/
structure MdState where
  elements : List MdBlock
  inCodeBlock : Bool
  codeLines : List String
  listItems : List (Nat × String)
  listType : Option ListKind

/-- `flushList`: emit the accumulated list block, if any. -/
def flushList (st : MdState) : MdState :=
  if st.listItems.length > 0 && st.listType.isSome then
    { st with
      elements := st.elements ++
        [match st.listType with
         | some .ul => MdBlock.ulist st.listItems
         | _ => MdBlock.olist st.listItems]
      listItems := []
      listType := none }
  else st

/-- One iteration of the renderer's line loop. -/
def processLine (st : MdState) (line : String) : MdState :=
  if fenceLine line then
    if st.inCodeBlock then
      { st with elements := st.elements ++ [MdBlock.codeBlock st.codeLines]
                codeLines := []
                inCodeBlock := false }
    else
      let st' := flushList st
      { st' with inCodeBlock := true }
  else if st.inCodeBlock then
    { st with codeLines := st.codeLines ++ [line] }
  else if hrLine line then
    let st' := flushList st
    { st' with elements := st'.elements ++ [MdBlock.rule] }
  else if line.startsWith "#### " then
    let st' := flushList st
    { st' with elements := st'.elements ++ [MdBlock.heading4 (sliceFrom line 5)] }
  else if line.startsWith "### " then
    let st' := flushList st
    { st' with elements := st'.elements ++ [MdBlock.heading3 (sliceFrom line 4)] }
  else if line.startsWith "## " then
    let st' := flushList st
    { st' with elements := st'.elements ++ [MdBlock.heading2 (sliceFrom line 3)] }
  else if line.startsWith "# " then
    let st' := flushList st
    { st' with elements := st'.elements ++ [MdBlock.heading1 (sliceFrom line 2)] }
  else if line.startsWith "> " then
    let st' := flushList st
    { st' with elements := st'.elements ++ [MdBlock.blockquote (sliceFrom line 2)] }
  else
    match ulMatch line with
    | some item =>
      let st' := if st.listType ≠ some ListKind.ul then
          { flushList st with listType := some ListKind.ul }
        else st
      { st' with listItems := st'.listItems ++ [item] }
    | none =>
      match olMatch line with
      | some item =>
        let st' := if st.listType ≠ some ListKind.ol then
            { flushList st with listType := some ListKind.ol }
          else st
        { st' with listItems := st'.listItems ++ [item] }
      | none =>
        if jsTrim line == "" then
          let st' := flushList st
          { st' with elements := st'.elements ++ [MdBlock.blankLine] }
        else
          let st' := flushList st
          { st' with elements := st'.elements ++ [MdBlock.paragraph line] }

/-- The initial renderer state. -/
def mdInit : MdState := ⟨[], false, [], [], none⟩

/-- `renderMarkdown` of `src/app/page.tsx:294`: split into lines, fold the
line loop, and flush any remaining list. A falsy input renders nothing.
Lines of an unterminated code fence stay in the state's `codeLines`
accumulator and are never emitted as blocks, exactly as in the source. -/
def renderMarkdown (text : String) : List MdBlock :=
  if text == "" then []
  else (flushList ((splitNl text).foldl processLine mdInit)).elements

end MedRag

namespace MedRag

/-! The knowledge-base proxy routes (`src/unnamed/part_000` and
`src/unnamed/part_001`). Upstream calls are modelled by oracles passed to
the handlers; each handler also returns the trace of upstream bodies it
sent, so that claims about which calls are made can be stated. The crawl
(PATCH) handler is not referenced by any claim and is not embedded. -/

/-- JavaScript `s.split(sep)` for a single-character separator: never empty,
keeps empty segments. -/
def jsSplit (sep : Char) (s : String) : List String :=
  (s.data.foldr
    (fun c acc =>
      if c == sep then [] :: acc
      else match acc with
        | seg :: rest => (c :: seg) :: rest
        | [] => [[c]])
    [[]]).map (fun cs => (⟨cs⟩ : String))

/-- `arr.pop()` of a non-empty array produced by `split` (the last segment). -/
def lastSeg (l : List String) : String := l.getLast?.getD ""

/-- The outcome of one upstream `fetch` as the handlers consume it: the `ok`
flag, the HTTP status, the decoded JSON body (for `ok` paths) and the error
text (for failure paths). -/
structure FetchRes where
  ok : Bool
  status : Nat
  jsonBody : JsVal
  textBody : String

/-- A document entry produced by the listing mapping. -/
structure RagDocument where
  fileName : String
  fullPath : String
  fileType : String
  status : String

/-- The JSON envelope a route responds with, field-for-field: `status` is the
HTTP status and each remaining field is present exactly when the source's
object literal sets it. -/
structure RouteResp where
  status : Nat
  success : Bool
  error : Option String
  details : Option String
  message : Option String
  fileName : Option String
  fileType : Option String
  documentCount : Option JsVal
  deletedCount : Option Nat
  documents : Option (List RagDocument)
  ragId : Option String
  timestamp : Option String

/-- A response skeleton with only status and success set. -/
def baseResp (status : Nat) (success : Bool) : RouteResp :=
  ⟨status, success, none, none, none, none, none, none, none, none, none, none⟩

/-- The listing bodies' path extraction:
`Array.isArray(data) ? data : data.documents || data.data || []`. -/
def pickFilePaths (body : JsVal) : JsVal :=
  match body with
  | .arr _ => body
  | _ => firstTruthyJs [jget body "documents", jget body "data"] (.arr [])

/-- Map one listing path to its displayed document record: file name is the
last path segment (or the whole path when that segment is empty), and the
type comes from the lower-cased extension. -/
def mapDocument (fp : JsVal) : RagDocument :=
  let fullPath := match fp with
    | .str s => s
    | _ => jsToString fp
  let fileName := let l := lastSeg (jsSplit '/' fullPath); if l == "" then fullPath else l
  let ext := jsToLower (lastSeg (jsSplit '.' fileName))
  let fileType :=
    if ext == "pdf" then "pdf"
    else if ext == "docx" then "docx"
    else if ext == "txt" then "txt"
    else "unknown"
  ⟨fileName, fullPath, fileType, "active"⟩

/-- The default health-check envelope of the GET route. -/
def runningResp (now : String) : RouteResp :=
  { baseResp 200 true with
    message := some "RAG Knowledge Base API is running"
    timestamp := some now }

/-- The successful document-listing envelope. -/
def docsResp (documents : List RagDocument) (rid now : String) : RouteResp :=
  { baseResp 200 true with
    documents := some documents
    ragId := some rid
    timestamp := some now }

/-- The GET handler of `src/unnamed/part_001:48`: with a truthy `ragId` query
parameter it fetches the upstream listing, and only an `ok` listing produces
a documents envelope — on any non-success status the handler falls through
to the health-check envelope. A non-array path extraction makes the source's
`.map` throw into the catch-all, modelled by the 500 envelope. -/
def getHandler001 (apiKey : Bool) (ragId : Option String) (upstream : FetchRes)
    (now : String) : RouteResp :=
  if !apiKey then { baseResp 500 false with error := some "LYZR_API_KEY not configured" }
  else
    match ragId with
    | some rid =>
      if !(rid == "") then
        if upstream.ok then
          match pickFilePaths upstream.jsonBody with
          | .arr es => docsResp (es.map mapDocument) rid now
          | _ => { baseResp 500 false with
                   error := some "filePaths.map is not a function" }
        else runningResp now
      else runningResp now
    | none => runningResp now

end MedRag

namespace MedRag

/-! The upload flows. -/

/-- The result the handler observes for one `train` attempt: a success with
its decoded JSON body, a non-success HTTP status with its error text, or a
thrown network/decode error with its message. -/
inductive AttemptResult where
  | ok (body : JsVal)
  | httpFail (status : Nat) (text : String)
  | netErr (msg : String)

/-- Is the attempt the `resp.ok` success the loop breaks on? -/
def AttemptResult.isOk : AttemptResult → Bool
  | .ok _ => true
  | _ => false

/-- The error text an unsuccessful attempt stores in `lastTrainError`. -/
def AttemptResult.errText : AttemptResult → String
  | .ok _ => ""
  | .httpFail _ t => t
  | .netErr m => m

/-- One upstream `train` call as issued: the parser strategy and the file
bytes sent. -/
structure TrainCall where
  parser : String
  bytes : List Nat

/-- An uploaded file as the handler reads it from the form data. -/
structure FileInfo where
  name : String
  mime : String
  bytes : List Nat

/-- `FILE_TYPE_MAP`: declared media type to train path tag. -/
def FILE_TYPE_MAP (mime : String) : Option String :=
  if mime == "application/pdf" then some "pdf"
  else if mime == "application/vnd.openxmlformats-officedocument.wordprocessingml.document" then
    some "docx"
  else if mime == "text/plain" then some "txt"
  else none

/-- The extension fallback of `src/unnamed/part_001`: the lower-cased last
dot-separated segment of the file name, accepted only for pdf/docx/txt. -/
def extFileType (name : String) : Option String :=
  let ext := jsToLower (lastSeg (jsSplit '.' name))
  if ext == "pdf" then some "pdf"
  else if ext == "docx" then some "docx"
  else if ext == "txt" then some "txt"
  else none

/-- File-type resolution of `src/unnamed/part_001:222`: the media type map
first, and only when it fails, the file-name extension. -/
def resolveFileType001 (mime name : String) : Option String :=
  match FILE_TYPE_MAP mime with
  | some t => some t
  | none => extFileType name

/-- The fixed parser-strategy order of the fallback chain. -/
def parsersList : List String := ["auto", "llmsherpa", "none"]

/-- The `for (const parser of parsers)` loop of `src/unnamed/part_001:268`:
issue train attempts in order with the same file bytes, stopping at the
first `ok` response (whatever its decoded body), remembering the last error
text seen. Returns the calls made, the final value of the mutable
`trainData` variable (`null` when no attempt returned `ok`, otherwise the
`ok` attempt's decoded body, which may itself be falsy), and the final
`lastTrainError`. -/
def runParsers (bytes : List Nat) (oracle : Nat → AttemptResult) :
    List String → Nat → String → List TrainCall × JsVal × String
  | [], _, lastErr => ([], .jsNull, lastErr)
  | p :: rest, i, lastErr =>
    match oracle i with
    | .ok body => ([⟨p, bytes⟩], body, lastErr)
    | .httpFail _ t =>
      let r := runParsers bytes oracle rest (i + 1) t
      (⟨p, bytes⟩ :: r.1, r.2.1, r.2.2)
    | .netErr m =>
      let r := runParsers bytes oracle rest (i + 1) m
      (⟨p, bytes⟩ :: r.1, r.2.1, r.2.2)

/-- The success envelope shared by both upload flows. -/
def uploadSuccessResp (f : FileInfo) (ft : String) (trainData : JsVal)
    (rid now : String) : RouteResp :=
  { baseResp 200 true with
    message := some "Document uploaded and trained successfully"
    fileName := some f.name
    fileType := some ft
    documentCount := some (firstTruthyJs [jget trainData "document_count", jget trainData "chunks"] (.num 1))
    ragId := some rid
    timestamp := some now }

/-- The upload branch of the POST handler of `src/unnamed/part_001:205`:
validate, resolve the file type (media type, then extension), then try the
three parser strategies in order. The post-loop `if (!trainData)` is a
truthiness test, so both an exhausted loop and an `ok` attempt whose
decoded body is falsy (`null`, `0`, `false`, `""`) produce the 500
envelope with the last error text. -/
def uploadPost001 (apiKey : Bool) (ragId : Option String) (file : Option FileInfo)
    (oracle : Nat → AttemptResult) (now : String) : RouteResp × List TrainCall :=
  if !apiKey then
    ({ baseResp 500 false with error := some "LYZR_API_KEY not configured on server" }, [])
  else
    match ragId, file with
    | some rid, some f =>
      if rid == "" then
        ({ baseResp 400 false with error := some "ragId and file are required" }, [])
      else
        match resolveFileType001 f.mime f.name with
        | none =>
          ({ baseResp 400 false with
             error := some ("Unsupported file type: " ++
               (if f.mime == "" then "unknown" else f.mime) ++
               ". Supported: PDF, DOCX, TXT") }, [])
        | some ft =>
          let r := runParsers f.bytes oracle parsersList 0 ""
          if !truthy r.2.1 then
            ({ baseResp 500 false with
               error := some "Failed to train document after trying multiple parsers"
               details := some r.2.2 }, r.1)
          else (uploadSuccessResp f ft r.2.1 rid now, r.1)
    | _, _ => ({ baseResp 400 false with error := some "ragId and file are required" }, [])

/-- Building the success response of `src/unnamed/part_000:193` from the
decoded train body: reading `trainData.document_count` on a `null` (or
`undefined`) body throws a `TypeError` into the route's catch-all, which
answers 500 with the exception's message; any other body (objects, but also
boxed primitives, whose property reads yield `undefined`) builds the
success envelope. -/
def upload000OkResp (f : FileInfo) (ft : String) (trainData : JsVal)
    (rid now : String) : RouteResp :=
  match trainData with
  | .jsNull =>
    { baseResp 500 false with
      error := some "Cannot read properties of null (reading 'document_count')" }
  | .undef =>
    { baseResp 500 false with
      error := some "Cannot read properties of undefined (reading 'document_count')" }
  | _ => uploadSuccessResp f ft trainData rid now

/-- The upload branch of the POST handler of `src/unnamed/part_000:127`: the
near-duplicate route, which maps the media type only (no extension
fallback) and issues exactly one train attempt with the `auto` strategy,
reporting that attempt's outcome (propagating its failure status). -/
def uploadPost000 (apiKey : Bool) (ragId : Option String) (file : Option FileInfo)
    (oracle : Nat → AttemptResult) (now : String) : RouteResp × List TrainCall :=
  if !apiKey then
    ({ baseResp 500 false with error := some "LYZR_API_KEY not configured on server" }, [])
  else
    match ragId, file with
    | some rid, some f =>
      if rid == "" then
        ({ baseResp 400 false with error := some "ragId and file are required" }, [])
      else
        match FILE_TYPE_MAP f.mime with
        | none =>
          ({ baseResp 400 false with
             error := some ("Unsupported file type: " ++ f.mime ++
               ". Supported: PDF, DOCX, TXT") }, [])
        | some ft =>
          match oracle 0 with
          | .ok trainData => (upload000OkResp f ft trainData rid now, [⟨"auto", f.bytes⟩])
          | .httpFail s t =>
            ({ baseResp s false with
               error := some ("Failed to train document: " ++ toString s)
               details := some t }, [⟨"auto", f.bytes⟩])
          | .netErr m =>
            ({ baseResp 500 false with error := some m }, [⟨"auto", f.bytes⟩])
    | _, _ => ({ baseResp 400 false with error := some "ragId and file are required" }, [])

end MedRag

namespace MedRag

/-! The DELETE handler (identical in `src/unnamed/part_000:281` and
`src/unnamed/part_001:386`): delete with the names as given, and on failure
resolve bare names against the fetched listing and retry. -/

/-- Does the name already look like a full path (`name.includes("/")`)? -/
def hasSlash (s : String) : Bool := s.data.contains '/'

/-- JavaScript `p.endsWith(suffix)`. -/
def jsStrEndsWith (p suffix : String) : Bool := suffix.data.isSuffixOf p.data

/-- The listing search of the delete retry:
`allPaths.find(p => p.endsWith("/" + name) || p === name)`. -/
def findFullPath (allPaths : List String) (name : String) : Option String :=
  allPaths.find? (fun p => jsStrEndsWith p ("/" ++ name) || p == name)

/-- The `.map(...)` step of the retry-batch construction: full paths pass
through unchanged; bare names resolve through the listing (`undefined` when
no entry matches). -/
def resolveFullPathsRaw (names allPaths : List String) : List (Option String) :=
  names.map (fun name => if hasSlash name then some name else findFullPath allPaths name)

/-- `.filter(Boolean)` over an array of `string | undefined`: keeps exactly
the truthy entries, so it drops both `undefined` and the empty string. -/
def jsFilterBoolean (l : List (Option String)) : List String :=
  l.filterMap (fun o => o.bind (fun s => if s == "" then none else some s))

/-- The resolved retry batch of the delete operation's second phase. -/
def resolveFullPaths (names allPaths : List String) : List String :=
  jsFilterBoolean (resolveFullPathsRaw names allPaths)

/-- The per-name description of the retry batch: a name with a path
separator is kept verbatim; a bare name takes the first listing entry that
ends with `/<name>` or equals it, except that an empty-string match is
dropped like a missing one. Used to characterise `resolveFullPaths`. -/
def resolvedName (allPaths : List String) (name : String) : Option String :=
  if hasSlash name then some name
  else
    match findFullPath allPaths name with
    | some p => if p == "" then none else some p
    | none => none

/-- The upstream bodies the DELETE handler sent: the first attempt's name
array and, when the retry runs, the resolved path array. -/
structure DeleteTrace where
  firstBody : Option (List String)
  retryBody : Option (List String)

/-- The delete failure envelope (first attempt or retry). -/
def deleteFailResp (r : FetchRes) : RouteResp :=
  { baseResp r.status false with
    error := some ("Failed to delete documents: " ++ toString r.status)
    details := some r.textBody }

/-- The delete success envelope. -/
def deleteOkResp (count : Nat) (rid now : String) : RouteResp :=
  { baseResp 200 true with
    message := some "Documents deleted successfully"
    deletedCount := some count
    ragId := some rid
    timestamp := some now }

/-- The DELETE handler: try the given names; if that fails and the listing
fetch succeeds, resolve full paths and retry when any were found, else
report the original failure. The listing body is modelled as its array of
path strings (the shape the source assumes of it). -/
def deleteHandler (apiKey : Bool) (ragId : Option String)
    (documentNames : Option (List String)) (first : FetchRes) (listingOk : Bool)
    (listingPaths : List String) (retry : FetchRes) (now : String) :
    RouteResp × DeleteTrace :=
  if !apiKey then
    ({ baseResp 500 false with error := some "LYZR_API_KEY not configured on server" },
     ⟨none, none⟩)
  else
    match ragId, documentNames with
    | some rid, some names =>
      if rid == "" then
        ({ baseResp 400 false with error := some "ragId and documentNames array are required" },
         ⟨none, none⟩)
      else if first.ok then
        (deleteOkResp names.length rid now, ⟨some names, none⟩)
      else if listingOk then
        let fullPaths := resolveFullPaths names listingPaths
        if fullPaths.length > 0 then
          if retry.ok then (deleteOkResp fullPaths.length rid now, ⟨some names, some fullPaths⟩)
          else (deleteFailResp retry, ⟨some names, some fullPaths⟩)
        else (deleteFailResp first, ⟨some names, none⟩)
      else (deleteFailResp first, ⟨some names, none⟩)
    | _, _ =>
      ({ baseResp 400 false with error := some "ragId and documentNames array are required" },
       ⟨none, none⟩)

end MedRag

namespace MedRag

/-! Classification predicates used by the claim statements. -/

/-- Is the value an array or a string (the non-defaulting inputs of
`safeArray`)? -/
def jsArrOrStr : JsVal → Bool
  | .arr _ => true
  | .str _ => true
  | _ => false

/-- Is the value a non-null, non-object primitive (string, number or
boolean)? -/
def jsPrimitive : JsVal → Bool
  | .bool _ => true
  | .num _ => true
  | .str _ => true
  | _ => false

/-- The condition under which `(v || dflt).toLowerCase()` cannot throw: the
field is a string or falsy. -/
def strOrFalsy (v : JsVal) : Bool :=
  match v with
  | .str _ => true
  | _ => !truthy v

/-! Helper lemmas. -/

/-- A value with a truthy property is an object, hence itself truthy. -/
theorem truthy_of_jget_truthy {x : JsVal} {k : String}
    (h : truthy (jget x k) = true) : truthy x = true := by
  cases x <;> simp [jget, truthy] at h ⊢

/-- Reading `answer` back from `\x7b ...defaults, answer: v \x7d`. -/
theorem jget_withAnswer (v : JsVal) : jget (withAnswer v) "answer" = v := rfl

/-- `withAnswer` is an object, hence truthy. -/
theorem truthy_withAnswer (v : JsVal) : truthy (withAnswer v) = true := rfl

/-- C6: the safe-array coercion maps an array to the elementwise
stringification of equal length and order; a string that JSON-parses to an
array to that array stringified; any other non-empty string to the singleton
holding it; the empty string to the empty sequence; and every non-array,
non-string value to the empty sequence. -/
theorem C6_safeArray_cases :
    (∀ es, safeArray (.arr es) = es.map jsToString ∧
      (safeArray (.arr es)).length = es.length) ∧
    (∀ s es, jsonParse s = some (.arr es) →
      safeArray (.str s) = es.map jsToString ∧
      (safeArray (.str s)).length = es.length) ∧
    (∀ s, ¬(s = "") → (∀ es, jsonParse s ≠ some (.arr es)) →
      safeArray (.str s) = [s]) ∧
    safeArray (.str "") = [] ∧
    (∀ j, jsArrOrStr j = false → safeArray j = []) := by
  refine ⟨fun es => ⟨rfl, by simp [safeArray]⟩, fun s es h => ?_, fun s hs h => ?_, rfl, fun j h => ?_⟩
  · constructor
    · simp [safeArray, h]
    · simp [safeArray, h]
  · simp only [safeArray]
    cases hp : jsonParse s with
    | none => simp [hs]
    | some v =>
      cases v
      case arr es => exact absurd hp (h es)
      all_goals simp [hs]
  · cases j <;> simp_all [safeArray, jsArrOrStr]

/-- Witness for C6 at a concrete non-JSON, non-empty string. -/
theorem C6_witness : safeArray (.str "plain") = ["plain"] :=
  C6_safeArray_cases.2.2.1 "plain" (by decide)
    (by intro es h; rw [show jsonParse "plain" = none from rfl] at h; cases h)

/-- C10: every non-null, non-object primitive payload (a bare string, a
number, or a boolean) normalizes to the all-default record — a top-level
string payload is never adopted as the answer. -/
theorem C10_primitive_defaults :
    ∀ j, jsPrimitive j = true → deepExtractResponse j = some defaultParsed := by
  intro j h
  cases j with
  | bool b =>
    cases b <;>
      simp [deepExtractResponse, extractData, data5of, data4of, data3of, data2of, data1of,
        jget, truthy]
  | num n =>
    by_cases hn : n = 0 <;>
      simp [deepExtractResponse, extractData, data5of, data4of, data3of, data2of, data1of,
        jget, truthy, hn]
  | str s =>
    by_cases hs : s = "" <;>
      simp [deepExtractResponse, extractData, data5of, data4of, data3of, data2of, data1of,
        jget, truthy, hs]
  | _ => simp [jsPrimitive] at h

/-- Witness for C10 at a concrete number. -/
theorem C10_witness : deepExtractResponse (.num 42) = some defaultParsed :=
  C10_primitive_defaults (.num 42) rfl

end MedRag

namespace MedRag

/-- C9: in the GET route of `src/unnamed/part_001`, when a (truthy) `ragId`
query parameter is supplied and the upstream document-list call returns a
non-success status, the handler falls through and responds 200 with the
health-check envelope — the listing failure is never surfaced as an error or
a document list. -/
theorem C9_get_fallthrough :
    ∀ (rid : String) (upstream : FetchRes) (now : String),
      ¬(rid = "") → upstream.ok = false →
      getHandler001 true (some rid) upstream now = runningResp now := by
  intro rid upstream now hrid hok
  simp [getHandler001, hrid, hok]

/-- Witness for C9 at a concrete failed listing. -/
theorem C9_witness :
    getHandler001 true (some "kb1") ⟨false, 404, .jsNull, "not found"⟩ "t0" =
      runningResp "t0" :=
  C9_get_fallthrough "kb1" ⟨false, 404, .jsNull, "not found"⟩ "t0" (by decide) rfl

/-- C8: once a fence line opens a code block, every following line up to a
closing fence is only accumulated as literal code — the state's emitted
blocks are unchanged, so no heading, list, rule, quote or paragraph block
arises from those lines — and an unterminated fence consumes all remaining
lines as code; in particular rendering a fence followed by `"### Title"`
emits no block at all. -/
theorem C8_code_fence :
    (∀ (st : MdState) (ls : List String), st.inCodeBlock = true →
       (∀ l ∈ ls, fenceLine l = false) →
       ls.foldl processLine st = { st with codeLines := st.codeLines ++ ls }) ∧
    renderMarkdown ("\x60\x60\x60" ++ "\n### Title") = [] := by
  constructor
  · intro st ls
    induction ls generalizing st with
    | nil => intro _ _; simp
    | cons l ls ih =>
      intro h hls
      have hl : fenceLine l = false := hls l (by simp)
      have hrest : ∀ x ∈ ls, fenceLine x = false := fun x hx => hls x (by simp [hx])
      simp only [List.foldl_cons]
      rw [show processLine st l = { st with codeLines := st.codeLines ++ [l] } by
        simp [processLine, hl, h]]
      rw [ih { st with codeLines := st.codeLines ++ [l] } h hrest]
      simp
  · rfl

/-- Witness for C8: a heading line inside an open fence is consumed as code
and emits no block. -/
theorem C8_witness :
    (["### Title"].foldl processLine ⟨[], true, [], [], none⟩).elements = [] ∧
    (["### Title"].foldl processLine ⟨[], true, [], [], none⟩).codeLines = ["### Title"] := by
  have h := C8_code_fence.1 ⟨[], true, [], [], none⟩ ["### Title"] rfl (by decide)
  rw [h]
  exact ⟨rfl, rfl⟩

/-- C7: an upload whose declared media type does not map to pdf/docx/txt and
whose file-name extension does not either fails with the 400
unsupported-type envelope and makes no upstream call; the extension is
consulted only when the media type fails to map (the resolution is
independent of the file name whenever the media type maps); the
near-duplicate route of `src/unnamed/part_000` likewise makes no upstream
call and returns 400 whenever the media type alone does not map. -/
theorem C7_unsupported_type :
    (∀ (f : FileInfo) (rid : String) (oracle : Nat → AttemptResult) (now : String),
       ¬(rid = "") → resolveFileType001 f.mime f.name = none →
       uploadPost001 true (some rid) (some f) oracle now =
         ({ baseResp 400 false with
            error := some ("Unsupported file type: " ++
              (if f.mime == "" then "unknown" else f.mime) ++
              ". Supported: PDF, DOCX, TXT") }, [])) ∧
    (∀ mime name name2 t, FILE_TYPE_MAP mime = some t →
       resolveFileType001 mime name = resolveFileType001 mime name2) ∧
    (∀ (f : FileInfo) (rid : String) (oracle : Nat → AttemptResult) (now : String),
       ¬(rid = "") → FILE_TYPE_MAP f.mime = none →
       uploadPost000 true (some rid) (some f) oracle now =
         ({ baseResp 400 false with
            error := some ("Unsupported file type: " ++ f.mime ++
              ". Supported: PDF, DOCX, TXT") }, [])) := by
  refine ⟨fun f rid oracle now hrid hft => ?_, fun mime name name2 t ht => ?_,
    fun f rid oracle now hrid hft => ?_⟩
  · simp [uploadPost001, hrid, hft]
  · simp [resolveFileType001, ht]
  · simp [uploadPost000, hrid, hft]

/-- Witness for C7 at a concrete unsupported media type and extension. -/
theorem C7_witness :
    uploadPost001 true (some "kb1") (some ⟨"img.png", "image/png", [7]⟩)
      (fun _ => .netErr "e") "t0" =
      ({ baseResp 400 false with
         error := some "Unsupported file type: image/png. Supported: PDF, DOCX, TXT" }, []) :=
  C7_unsupported_type.1 ⟨"img.png", "image/png", [7]⟩ "kb1" (fun _ => .netErr "e") "t0"
    (by decide) rfl

end MedRag

namespace MedRag

/-- C2 (amended): the route of `src/unnamed/part_001` implements the fallback
chain — when the file type resolves and attempt `k` (0-based) is the first
`ok` response, it issues exactly `k + 1` train calls in the fixed order
auto → llmsherpa → none, each with the same file bytes, and reports the
`k`-th attempt's decoded body when that body is truthy; when the `ok`
attempt's body is falsy the loop still stops after `k + 1` calls but the
truthiness test `if (!trainData)` reports the 500 all-parsers-failed
envelope with the last error text seen before attempt `k`; the
near-duplicate route of `src/unnamed/part_000` instead issues exactly one
train call, with the `auto` strategy, whatever the simulated outcomes. -/
theorem C2_amended_fallback_chain :
    (∀ (f : FileInfo) (rid : String) (oracle : Nat → AttemptResult) (now t : String)
       (k : Nat) (d : JsVal),
       ¬(rid = "") → resolveFileType001 f.mime f.name = some t →
       k < 3 → (∀ i, i < k → (oracle i).isOk = false) → oracle k = .ok d →
       truthy d = true →
       uploadPost001 true (some rid) (some f) oracle now =
         (uploadSuccessResp f t d rid now,
          (parsersList.take (k + 1)).map (fun p => ⟨p, f.bytes⟩))) ∧
    (∀ (f : FileInfo) (rid : String) (oracle : Nat → AttemptResult) (now t : String)
       (k : Nat) (d : JsVal),
       ¬(rid = "") → resolveFileType001 f.mime f.name = some t →
       k < 3 → (∀ i, i < k → (oracle i).isOk = false) → oracle k = .ok d →
       truthy d = false →
       uploadPost001 true (some rid) (some f) oracle now =
         ({ baseResp 500 false with
            error := some "Failed to train document after trying multiple parsers"
            details := some (if k = 0 then "" else (oracle (k - 1)).errText) },
          (parsersList.take (k + 1)).map (fun p => ⟨p, f.bytes⟩))) ∧
    (∀ (f : FileInfo) (rid : String) (oracle : Nat → AttemptResult) (now t : String),
       ¬(rid = "") → FILE_TYPE_MAP f.mime = some t →
       (uploadPost000 true (some rid) (some f) oracle now).2 = [⟨"auto", f.bytes⟩]) := by
  refine ⟨?_, ?_, ?_⟩
  · intro f rid oracle now t k d hrid hft hk hfirst hok htd
    interval_cases k
    · simp [uploadPost001, hrid, hft, runParsers, parsersList, hok, htd]
    · have h0 := hfirst 0 (by omega)
      cases hc0 : oracle 0 with
      | ok b => simp [hc0, AttemptResult.isOk] at h0
      | httpFail s0 e0 =>
        simp [uploadPost001, hrid, hft, runParsers, parsersList, hc0, hok, htd]
      | netErr m0 =>
        simp [uploadPost001, hrid, hft, runParsers, parsersList, hc0, hok, htd]
    · have h0 := hfirst 0 (by omega)
      have h1 := hfirst 1 (by omega)
      cases hc0 : oracle 0 with
      | ok b => simp [hc0, AttemptResult.isOk] at h0
      | httpFail s0 e0 =>
        cases hc1 : oracle 1 with
        | ok b => simp [hc1, AttemptResult.isOk] at h1
        | httpFail s1 e1 =>
          simp [uploadPost001, hrid, hft, runParsers, parsersList, hc0, hc1, hok, htd]
        | netErr m1 =>
          simp [uploadPost001, hrid, hft, runParsers, parsersList, hc0, hc1, hok, htd]
      | netErr m0 =>
        cases hc1 : oracle 1 with
        | ok b => simp [hc1, AttemptResult.isOk] at h1
        | httpFail s1 e1 =>
          simp [uploadPost001, hrid, hft, runParsers, parsersList, hc0, hc1, hok, htd]
        | netErr m1 =>
          simp [uploadPost001, hrid, hft, runParsers, parsersList, hc0, hc1, hok, htd]
  · intro f rid oracle now t k d hrid hft hk hfirst hok htd
    interval_cases k
    · simp [uploadPost001, hrid, hft, runParsers, parsersList, hok, htd]
    · have h0 := hfirst 0 (by omega)
      cases hc0 : oracle 0 with
      | ok b => simp [hc0, AttemptResult.isOk] at h0
      | httpFail s0 e0 =>
        simp [uploadPost001, hrid, hft, runParsers, parsersList, hc0, hok, htd,
          AttemptResult.errText]
      | netErr m0 =>
        simp [uploadPost001, hrid, hft, runParsers, parsersList, hc0, hok, htd,
          AttemptResult.errText]
    · have h0 := hfirst 0 (by omega)
      have h1 := hfirst 1 (by omega)
      cases hc0 : oracle 0 with
      | ok b => simp [hc0, AttemptResult.isOk] at h0
      | httpFail s0 e0 =>
        cases hc1 : oracle 1 with
        | ok b => simp [hc1, AttemptResult.isOk] at h1
        | httpFail s1 e1 =>
          simp [uploadPost001, hrid, hft, runParsers, parsersList, hc0, hc1, hok, htd,
            AttemptResult.errText]
        | netErr m1 =>
          simp [uploadPost001, hrid, hft, runParsers, parsersList, hc0, hc1, hok, htd,
            AttemptResult.errText]
      | netErr m0 =>
        cases hc1 : oracle 1 with
        | ok b => simp [hc1, AttemptResult.isOk] at h1
        | httpFail s1 e1 =>
          simp [uploadPost001, hrid, hft, runParsers, parsersList, hc0, hc1, hok, htd,
            AttemptResult.errText]
        | netErr m1 =>
          simp [uploadPost001, hrid, hft, runParsers, parsersList, hc0, hc1, hok, htd,
            AttemptResult.errText]
  · intro f rid oracle now t hrid hft
    cases hc0 : oracle 0 <;> simp [uploadPost000, hrid, hft, hc0]

/-- Counterexample for C2 as stated: under simulated outcomes
(fail, fail, succeed) the upload route of `src/unnamed/part_000` makes
exactly one upstream call (with the `auto` strategy) and reports a failure —
not three calls reporting the third's success. -/
theorem C2_counterexample :
    (uploadPost000 true (some "kb1") (some ⟨"doc.pdf", "application/pdf", [1, 2]⟩)
       (fun i => if i == 0 then .httpFail 422 "enc1"
         else if i == 1 then .httpFail 422 "enc2"
         else .ok (.obj [("chunks", .num 3)])) "t0").2 = [⟨"auto", [1, 2]⟩] ∧
    (uploadPost000 true (some "kb1") (some ⟨"doc.pdf", "application/pdf", [1, 2]⟩)
       (fun i => if i == 0 then .httpFail 422 "enc1"
         else if i == 1 then .httpFail 422 "enc2"
         else .ok (.obj [("chunks", .num 3)])) "t0").1.success = false :=
  ⟨rfl, rfl⟩

/-- Witness for the amended C2: outcomes (fail, fail, succeed) on the
`part_001` route give three calls in order and the third attempt's result. -/
theorem C2_witness :
    uploadPost001 true (some "kb1") (some ⟨"doc.pdf", "application/pdf", [1, 2]⟩)
      (fun i => if i == 0 then .httpFail 422 "enc1"
        else if i == 1 then .httpFail 422 "enc2"
        else .ok (.obj [("chunks", .num 3)])) "t0" =
      (uploadSuccessResp ⟨"doc.pdf", "application/pdf", [1, 2]⟩ "pdf"
         (.obj [("chunks", .num 3)]) "kb1" "t0",
       [⟨"auto", [1, 2]⟩, ⟨"llmsherpa", [1, 2]⟩, ⟨"none", [1, 2]⟩]) := by
  have h := C2_amended_fallback_chain.1 ⟨"doc.pdf", "application/pdf", [1, 2]⟩ "kb1"
    (fun i => if i == 0 then .httpFail 422 "enc1"
      else if i == 1 then .httpFail 422 "enc2"
      else .ok (.obj [("chunks", .num 3)])) "t0" "pdf" 2 (.obj [("chunks", .num 3)])
    (by decide) rfl (by omega)
    (by intro i hi; interval_cases i <;> rfl) rfl rfl
  simpa [parsersList] using h

/-- A failed attempt is a non-success status or a thrown error. -/
theorem attempt_fail_cases {a : AttemptResult} (h : a.isOk = false) :
    (∃ s t, a = .httpFail s t) ∨ ∃ m, a = .netErr m := by
  cases a <;> simp_all [AttemptResult.isOk]

/-- C5 (amended): when all three parser attempts fail (by non-success status
or thrown error), the upload route of `src/unnamed/part_001` responds with
HTTP status 500 — not the final attempt's failure status — carrying the
fixed error text and, as details, the last error text seen (the third
attempt's). -/
theorem C5_amended_failure_envelope :
    ∀ (f : FileInfo) (rid : String) (oracle : Nat → AttemptResult) (now t : String),
      ¬(rid = "") → resolveFileType001 f.mime f.name = some t →
      (∀ i, i < 3 → (oracle i).isOk = false) →
      uploadPost001 true (some rid) (some f) oracle now =
        ({ baseResp 500 false with
           error := some "Failed to train document after trying multiple parsers"
           details := some (oracle 2).errText },
         parsersList.map (fun p => ⟨p, f.bytes⟩)) := by
  intro f rid oracle now t hrid hft hall
  have h0 := attempt_fail_cases (hall 0 (by omega))
  have h1 := attempt_fail_cases (hall 1 (by omega))
  have h2 := attempt_fail_cases (hall 2 (by omega))
  rcases h0 with ⟨s0, e0, hc0⟩ | ⟨m0, hc0⟩ <;>
    rcases h1 with ⟨s1, e1, hc1⟩ | ⟨m1, hc1⟩ <;>
      rcases h2 with ⟨s2, e2, hc2⟩ | ⟨m2, hc2⟩ <;>
        simp [uploadPost001, hrid, hft, runParsers, parsersList, hc0, hc1, hc2,
          AttemptResult.errText, truthy]

/-- Counterexample for C5 as stated: three failures whose final attempt
returns HTTP 422 produce a response with status 500, not 422 (the last error
text is still surfaced in the details). -/
theorem C5_counterexample :
    (uploadPost001 true (some "kb1") (some ⟨"doc.pdf", "application/pdf", [1]⟩)
       (fun i => if i == 0 then .httpFail 400 "e1"
         else if i == 1 then .httpFail 401 "e2"
         else .httpFail 422 "e3") "t0").1.status = 500 ∧
    (uploadPost001 true (some "kb1") (some ⟨"doc.pdf", "application/pdf", [1]⟩)
       (fun i => if i == 0 then .httpFail 400 "e1"
         else if i == 1 then .httpFail 401 "e2"
         else .httpFail 422 "e3") "t0").1.details = some "e3" ∧
    ¬((500 : Nat) = 422) :=
  ⟨rfl, rfl, by decide⟩

/-- Witness for the amended C5 at a concrete all-fail oracle. -/
theorem C5_witness :
    uploadPost001 true (some "kb1") (some ⟨"doc.pdf", "application/pdf", [1]⟩)
      (fun i => if i == 0 then .httpFail 400 "e1"
        else if i == 1 then .netErr "net down"
        else .httpFail 422 "e3") "t0" =
      ({ baseResp 500 false with
         error := some "Failed to train document after trying multiple parsers"
         details := some "e3" },
       parsersList.map (fun p => ⟨p, [1]⟩)) := by
  have h := C5_amended_failure_envelope ⟨"doc.pdf", "application/pdf", [1]⟩ "kb1"
    (fun i => if i == 0 then .httpFail 400 "e1"
      else if i == 1 then .netErr "net down"
      else .httpFail 422 "e3") "t0" "pdf" (by decide) rfl
    (by intro i hi; interval_cases i <;> rfl)
  simpa [AttemptResult.errText] using h

end MedRag

namespace MedRag

/-- Unfolding one step of the `filter(Boolean)` model. -/
theorem jsFilterBoolean_cons (o : Option String) (l : List (Option String)) :
    jsFilterBoolean (o :: l) =
      match o with
      | some s => if s = "" then jsFilterBoolean l else s :: jsFilterBoolean l
      | none => jsFilterBoolean l := by
  cases o with
  | none => rfl
  | some s => by_cases hs : s = "" <;> simp [jsFilterBoolean, hs]

/-- C4 (amended): the retry batch of the delete operation's second phase is
the per-name resolution of the requested names — a name containing a path
separator passes through unchanged; a bare name takes the first listing path
ending in `/<name>` or equal to it, except that an empty-string resolution
is dropped along with the unmatched names; the batch for `["report.pdf"]`
against listing `["storage/report.pdf"]` is `["storage/report.pdf"]`; and
the retry runs exactly when the first attempt failed, the listing fetch
succeeded, and the batch is non-empty. -/
theorem C4_amended_resolution :
    (∀ names allPaths,
       resolveFullPaths names allPaths = names.filterMap (resolvedName allPaths)) ∧
    resolveFullPaths ["report.pdf"] ["storage/report.pdf"] = ["storage/report.pdf"] ∧
    (∀ (rid : String) (names : List String) (first : FetchRes)
       (listingPaths : List String) (retry : FetchRes) (now : String),
       ¬(rid = "") → first.ok = false →
       (deleteHandler true (some rid) (some names) first true listingPaths retry now).2.retryBody =
         (if resolveFullPaths names listingPaths = [] then none
          else some (resolveFullPaths names listingPaths))) ∧
    (∀ (rid : String) (names : List String) (first : FetchRes)
       (listingPaths : List String) (retry : FetchRes) (now : String),
       ¬(rid = "") → first.ok = true →
       (deleteHandler true (some rid) (some names) first true listingPaths retry now).2.retryBody =
         none) ∧
    (∀ (rid : String) (names : List String) (first : FetchRes)
       (listingPaths : List String) (retry : FetchRes) (now : String),
       ¬(rid = "") → first.ok = false →
       (deleteHandler true (some rid) (some names) first false listingPaths retry now).2.retryBody =
         none) := by
  refine ⟨fun names allPaths => ?_, by decide, fun rid names first listingPaths retry now hrid hfirst => ?_,
    fun rid names first listingPaths retry now hrid hfirst => ?_,
    fun rid names first listingPaths retry now hrid hfirst => ?_⟩
  · induction names with
    | nil => rfl
    | cons n ns ih =>
      have hstep : resolveFullPaths (n :: ns) allPaths =
          jsFilterBoolean ((if hasSlash n then some n else findFullPath allPaths n) ::
            resolveFullPathsRaw ns allPaths) := rfl
      have hfold : jsFilterBoolean (resolveFullPathsRaw ns allPaths) =
          resolveFullPaths ns allPaths := rfl
      rw [hstep, jsFilterBoolean_cons, List.filterMap_cons]
      by_cases hn : hasSlash n
      · have hne : ¬(n = "") := by
          intro h
          rw [h] at hn
          simp [hasSlash] at hn
        simp only [hn, if_true, resolvedName, hne, if_false, ite_false, hfold, ih]
      · cases hf : findFullPath allPaths n with
        | none => simp only [hn, if_false, resolvedName, hf, hfold, ih]; simp
        | some p =>
          by_cases hp : p = "" <;>
            (simp only [hn, if_false, resolvedName, hf, hfold, ih]; simp [hp])
  · by_cases hl : resolveFullPaths names listingPaths = []
    · simp [deleteHandler, hrid, hfirst, hl]
    · cases hr : retry.ok <;>
        simp [deleteHandler, hrid, hfirst, hr, List.length_pos, hl]
  · simp [deleteHandler, hrid, hfirst]
  · simp [deleteHandler, hrid, hfirst]

/-- Counterexample for C4 as stated: the bare name `""` has a listing entry
equal to it, yet the retry batch drops it (the source's `.filter(Boolean)`
removes the empty-string path). -/
theorem C4_counterexample :
    findFullPath [""] "" = some "" ∧ hasSlash "" = false ∧
    resolveFullPaths [""] [""] = [] :=
  ⟨rfl, rfl, rfl⟩

/-- Witness for the amended C4: the end-to-end scenario — first delete of
`["report.pdf"]` fails, the listing holds `["storage/report.pdf"]`, and the
retry body is the resolved full path. -/
theorem C4_witness :
    (deleteHandler true (some "kb1") (some ["report.pdf"]) ⟨false, 404, .jsNull, "err"⟩
      true ["storage/report.pdf"] ⟨true, 200, .jsNull, ""⟩ "t0").2.retryBody =
      some ["storage/report.pdf"] := by
  have h := C4_amended_resolution.2.2.1 "kb1" ["report.pdf"] ⟨false, 404, .jsNull, "err"⟩
    ["storage/report.pdf"] ⟨true, 200, .jsNull, ""⟩ "t0" (by decide) rfl
  simpa using h

end MedRag

namespace MedRag

/-- A `strOrFalsy` field lower-cases without throwing. -/
theorem toLower_orTruthy_isSome {v : JsVal} {d : String} (h : strOrFalsy v = true) :
    ∃ out, toLowerCaseJs (orTruthy v (.str d)) = some out := by
  cases v
  case str s => by_cases hs : s = "" <;> simp [orTruthy, truthy, toLowerCaseJs, hs]
  all_goals simp_all [strOrFalsy, orTruthy, truthy, toLowerCaseJs]

/-- C3 (amended): `deepExtractResponse` throws only through the unguarded
`.toLowerCase()` calls — for every payload whose chosen candidate carries
string-or-falsy `compliance_status` and `confidence` it returns a
fully-populated record; a falsy payload, or one with no candidate, yields
the all-default record; absent `sources_consulted` / `domains_accessed` /
`flags` become empty arrays; falsy `compliance_status` and `confidence`
default to `"compliant"` and `"medium"`; and the answer defaults to the
empty string whenever the candidate's `answer`, `text`, `response`,
`content` and `message` fields are all falsy (otherwise the first truthy
one among them is adopted, string or not). -/
theorem C3_amended_totality :
    ∀ j, strOrFalsy (jget (extractData j) "compliance_status") = true →
      strOrFalsy (jget (extractData j) "confidence") = true →
      ∃ r, deepExtractResponse j = some r ∧
        (truthy j = false → r = defaultParsed) ∧
        (truthy (extractData j) = false → r = defaultParsed) ∧
        (jget (extractData j) "sources_consulted" = .undef → r.sources_consulted = []) ∧
        (jget (extractData j) "domains_accessed" = .undef → r.domains_accessed = []) ∧
        (jget (extractData j) "flags" = .undef → r.flags = []) ∧
        (truthy (jget (extractData j) "compliance_status") = false →
          r.compliance_status = "compliant") ∧
        (truthy (jget (extractData j) "confidence") = false → r.confidence = "medium") ∧
        ((∀ k ∈ ["answer", "text", "response", "content", "message"],
            truthy (jget (extractData j) k) = false) → r.answer = .str "") := by
  intro j h1 h2
  by_cases hj : truthy j = true
  · by_cases hd : truthy (extractData j) = true
    · obtain ⟨cs, hcs⟩ :=
        @toLower_orTruthy_isSome (jget (extractData j) "compliance_status") "compliant" h1
      obtain ⟨cf, hcf⟩ :=
        @toLower_orTruthy_isSome (jget (extractData j) "confidence") "medium" h2
      refine ⟨⟨answerChain (extractData j),
        safeArray (jget (extractData j) "sources_consulted"), cs,
        safeArray (jget (extractData j) "domains_accessed"), cf,
        safeArray (jget (extractData j) "flags")⟩,
        ?_, fun h => by simp [hj] at h, fun h => by simp [hd] at h,
        fun hu => by rw [hu]; rfl, fun hu => by rw [hu]; rfl, fun hu => by rw [hu]; rfl,
        fun hfc => ?_, fun hfc => ?_, fun hall => ?_⟩
      · simp [deepExtractResponse, hj, hd, hcs, hcf]
      · rw [show orTruthy (jget (extractData j) "compliance_status") (.str "compliant") =
            .str "compliant" by simp [orTruthy, hfc]] at hcs
        simp only [toLowerCaseJs, Option.some.injEq] at hcs
        rw [← hcs]
        rfl
      · rw [show orTruthy (jget (extractData j) "confidence") (.str "medium") =
            .str "medium" by simp [orTruthy, hfc]] at hcf
        simp only [toLowerCaseJs, Option.some.injEq] at hcf
        rw [← hcf]
        rfl
      · have ha := hall "answer" (by simp)
        have hb := hall "text" (by simp)
        have hc := hall "response" (by simp)
        have hd2 := hall "content" (by simp)
        have he := hall "message" (by simp)
        simp [answerChain, firstTruthyJs, ha, hb, hc, hd2, he]
    · refine ⟨defaultParsed, ?_, fun _ => rfl, fun _ => rfl, fun _ => rfl, fun _ => rfl,
        fun _ => rfl, fun _ => rfl, fun _ => rfl, fun _ => rfl⟩
      simp only [Bool.not_eq_true] at hd
      simp [deepExtractResponse, hj, hd]
  · refine ⟨defaultParsed, ?_, fun _ => rfl, fun _ => rfl, fun _ => rfl, fun _ => rfl,
      fun _ => rfl, fun _ => rfl, fun _ => rfl, fun _ => rfl⟩
    simp only [Bool.not_eq_true] at hj
    simp [deepExtractResponse, hj]

/-- Counterexample for C3 as stated: a payload whose candidate carries a
numeric `compliance_status` makes the normalizer throw a `TypeError` (the
unguarded `.toLowerCase()`), so it is not total. -/
theorem C3_counterexample :
    deepExtractResponse (.obj [("answer", .str "A"), ("compliance_status", .num 5)]) =
      none := rfl

/-- Witness for the amended C3 at the end-to-end scenario payload. -/
theorem C3_witness :
    (deepExtractResponse (.obj [("response", .obj [("result",
      .str "\x7b\"answer\":\"Hi\",\"confidence\":\"HIGH\"\x7d")])])).isSome = true := by
  obtain ⟨r, hr, -⟩ := C3_amended_totality (.obj [("response", .obj [("result",
    .str "\x7b\"answer\":\"Hi\",\"confidence\":\"HIGH\"\x7d")])]) rfl rfl
  rw [hr]
  rfl

end MedRag

namespace MedRag

/-! Data-flow lemmas for the first-match property of the normalizer. -/

/-- A truthy non-empty length is the same as a non-empty string. -/
theorem length_pos_iff_ne_empty (s : String) : 0 < s.length ↔ ¬(s = "") := by
  obtain ⟨cs⟩ := s
  cases cs <;> simp [String.length, String.ext_iff]

/-- A string-valued property read forces an object receiver. -/
theorem exists_obj_of_jget_str {x : JsVal} {k : String} {s : String}
    (h : jget x k = .str s) : ∃ fs, x = .obj fs := by
  cases x
  case obj fs => exact ⟨fs, rfl⟩
  all_goals simp [jget] at h

/-- Reading `answer` back after the probe's `data.answer = v` assignment. -/
theorem jget_setAnswer (fs : List (String × JsVal)) (v : JsVal) :
    jget (setAnswer (.obj fs) v) "answer" = v := rfl

/-- A successful probe yields a non-empty string value, assignable as the
answer. -/
theorem probeTextKeys_some {d v : JsVal} (h : probeTextKeys d = some v) :
    truthy v = true ∧ jget (setAnswer d v) "answer" = v := by
  have hp := List.find?_some h
  have hm := List.mem_of_find?_eq_some h
  obtain ⟨s, rfl⟩ : ∃ s, v = .str s := by
    cases v <;> simp_all
  obtain ⟨k, hk, hjk⟩ := List.mem_map.mp hm
  obtain ⟨fs, rfl⟩ := exists_obj_of_jget_str hjk
  exact ⟨by simpa [truthy] using hp, jget_setAnswer fs (.str s)⟩

/-- If the candidate so far has a truthy answer, the message branch passes
it through. -/
theorem data2of_stable {j : JsVal} (h : truthy (jget (data1of j) "answer") = true) :
    data2of j = data1of j := by
  have hd := truthy_of_jget_truthy h
  simp [data2of, h, hd]

/-- If the candidate so far has a truthy answer, the probe passes it
through. -/
theorem data3of_stable {j : JsVal} (h : truthy (jget (data2of j) "answer") = true) :
    data3of j = data2of j := by
  simp [data3of, h]

/-- If the candidate so far has a truthy answer, the top-level path passes
it through. -/
theorem data4of_stable {j : JsVal} (h : truthy (jget (data3of j) "answer") = true) :
    data4of j = data3of j := by
  have hd := truthy_of_jget_truthy h
  simp [data4of, h, hd]

/-- If the candidate so far has a truthy answer, the raw-response path
passes it through. -/
theorem data5of_stable {j : JsVal} (h : truthy (jget (data4of j) "answer") = true) :
    data5of j = data4of j := by
  have hd := truthy_of_jget_truthy h
  simp [data5of, h, hd]

/-- A matching first stage pins the candidate's answer after path 1. -/
theorem s1some {j v : JsVal} (h : stageResultAnswer j = some v) :
    jget (data1of j) "answer" = v ∧ truthy v = true := by
  by_cases htr : truthy (jget (jget j "response") "result") = true
  · have hro := truthy_of_jget_truthy htr
    simp only [stageResultAnswer, htr, if_true] at h
    by_cases hta :
        truthy (jget (safeParseResult (jget (jget j "response") "result")) "answer") = true
    · simp only [hta, if_true, Option.some.injEq] at h
      subst h
      exact ⟨by simp [data1of, hro, htr], hta⟩
    · simp only [Bool.not_eq_true] at hta
      simp [hta] at h
  · simp only [Bool.not_eq_true] at htr
    simp [stageResultAnswer, htr] at h

/-- A failed first stage means the candidate after path 1 has no truthy
answer. -/
theorem s1none {j : JsVal} (h : stageResultAnswer j = none) :
    truthy (jget (data1of j) "answer") = false := by
  by_cases htr : truthy (jget (jget j "response") "result") = true
  · have hro := truthy_of_jget_truthy htr
    simp only [stageResultAnswer, htr, if_true] at h
    by_cases hta :
        truthy (jget (safeParseResult (jget (jget j "response") "result")) "answer") = true
    · simp [hta] at h
    · simp only [Bool.not_eq_true] at hta
      simpa [data1of, hro, htr] using hta
  · simp only [Bool.not_eq_true] at htr
    by_cases hro : truthy (jget j "response") = true
    · simp only [data1of, hro, if_true, htr, if_false]
      rfl
    · simp only [Bool.not_eq_true] at hro
      simp only [data1of, hro, if_false]
      rfl

end MedRag

namespace MedRag

/-- A truthy path-1 candidate forces a truthy `response.result`. -/
theorem result_truthy_of_data1 {j : JsVal} (h : truthy (data1of j) = true) :
    truthy (jget (jget j "response") "result") = true := by
  by_contra htr
  simp only [Bool.not_eq_true] at htr
  by_cases hro : truthy (jget j "response") = true
  · simp only [data1of, hro, if_true, htr, if_false] at h
    exact absurd h (by simp [truthy])
  · simp only [Bool.not_eq_true] at hro
    simp only [data1of, hro, if_false] at h
    exact absurd h (by simp [truthy])

/-- The path-1 candidate under a truthy `response.result`. -/
theorem data1of_eq {j : JsVal} (htr : truthy (jget (jget j "response") "result") = true) :
    data1of j = safeParseResult (jget (jget j "response") "result") := by
  have hro := truthy_of_jget_truthy htr
  simp [data1of, hro, htr]

/-- Unfolding the message branch when its guard holds. -/
theorem data2of_eq_branch {j : JsVal}
    (hcond : (truthy (jget j "response") &&
      !(truthy (data1of j) && truthy (jget (data1of j) "answer")) &&
      truthy (jget (jget j "response") "message")) = true) :
    data2of j =
      (if truthy (jget (safeParseResult (jget (jget j "response") "message")) "answer") then
        safeParseResult (jget (jget j "response") "message")
      else
        match jget (jget j "response") "message" with
        | .str s => if s.length > 0 then withAnswer (.str s) else data1of j
        | _ => data1of j) := by
  simp only [data2of, hcond, if_true]

/-- Skipping the message branch when its guard fails. -/
theorem data2of_skip {j : JsVal}
    (hcond : (truthy (jget j "response") &&
      !(truthy (data1of j) && truthy (jget (data1of j) "answer")) &&
      truthy (jget (jget j "response") "message")) = false) :
    data2of j = data1of j := by
  simp only [data2of, hcond, Bool.false_eq_true, if_false]

/-- Unfolding the probe step when its guard holds. -/
theorem data3of_eq_branch {j : JsVal}
    (hcond : (truthy (jget j "response") && truthy (data2of j) &&
      !truthy (jget (data2of j) "answer")) = true) :
    data3of j =
      (match probeTextKeys (data2of j) with
       | some v => setAnswer (data2of j) v
       | none => data2of j) := by
  simp only [data3of, hcond, if_true]

/-- Skipping the probe step when its guard fails. -/
theorem data3of_skip {j : JsVal}
    (hcond : (truthy (jget j "response") && truthy (data2of j) &&
      !truthy (jget (data2of j) "answer")) = false) :
    data3of j = data2of j := by
  simp only [data3of, hcond, Bool.false_eq_true, if_false]

/-- Unfolding the top-level path when its guard holds. -/
theorem data4of_eq_branch {j : JsVal}
    (hcond : (!(truthy (data3of j) && truthy (jget (data3of j) "answer"))) = true) :
    data4of j =
      (if truthy (jget j "answer") then safeParseResult j
       else if truthy (jget j "text") then withAnswer (jget j "text")
       else
         match jget j "message" with
         | .str s => if !(s == "") then withAnswer (.str s) else data3of j
         | _ => data3of j) := by
  simp only [data4of, hcond, if_true]

/-- Unfolding the raw-response path when its guard holds. -/
theorem data5of_eq_branch {j : JsVal}
    (hcond : (!(truthy (data4of j) && truthy (jget (data4of j) "answer")) &&
      truthy (jget j "raw_response")) = true) :
    data5of j =
      (if truthy (jget (safeParseResult (jget j "raw_response")) "answer") then
        safeParseResult (jget j "raw_response")
      else
        match jget j "raw_response" with
        | .str s => withAnswer (.str s)
        | _ => data4of j) := by
  simp only [data5of, hcond, if_true]

/-- A matching message stage pins the candidate's answer after path 2. -/
theorem s2some {j v : JsVal} (h1 : stageResultAnswer j = none)
    (h2 : stageMessage j = some v) :
    jget (data2of j) "answer" = v ∧ truthy v = true := by
  have ha1 := s1none h1
  by_cases hm : truthy (jget (jget j "response") "message") = true
  · have hro := truthy_of_jget_truthy hm
    have hcond : (truthy (jget j "response") &&
        !(truthy (data1of j) && truthy (jget (data1of j) "answer")) &&
        truthy (jget (jget j "response") "message")) = true := by
      simp [hro, hm, ha1]
    have hbr := data2of_eq_branch hcond
    simp only [stageMessage, hm, if_true] at h2
    by_cases hpa :
        truthy (jget (safeParseResult (jget (jget j "response") "message")) "answer") = true
    · simp only [hpa, if_true, Option.some.injEq] at h2
      subst h2
      rw [hbr, if_pos hpa]
      exact ⟨rfl, hpa⟩
    · simp only [Bool.not_eq_true] at hpa
      simp only [hpa, Bool.false_eq_true, if_false] at h2
      rw [hbr, if_neg (by simp [hpa])]
      cases hmv : jget (jget j "response") "message" with
      | str s =>
        rw [hmv] at h2
        by_cases hs : s = ""
        · simp [hs] at h2
        · simp only [show (s == "") = false by simp [hs], Bool.not_false, if_true,
            Option.some.injEq] at h2
          subst h2
          have hlen : 0 < s.length := (length_pos_iff_ne_empty s).mpr hs
          refine ⟨?_, by simp [truthy, hs]⟩
          simp only [hlen, if_true, jget_withAnswer]
      | undef => rw [hmv] at h2; simp at h2
      | jsNull => rw [hmv] at h2; simp at h2
      | bool b => rw [hmv] at h2; simp at h2
      | num n => rw [hmv] at h2; simp at h2
      | arr es => rw [hmv] at h2; simp at h2
      | obj fs => rw [hmv] at h2; simp at h2
  · simp only [Bool.not_eq_true] at hm
    simp [stageMessage, hm] at h2

/-- When neither of the first two stages matches, the message branch leaves
the candidate unchanged. -/
theorem d2_eq_of_none {j : JsVal} (h1 : stageResultAnswer j = none)
    (h2 : stageMessage j = none) : data2of j = data1of j := by
  have ha1 := s1none h1
  by_cases hm : truthy (jget (jget j "response") "message") = true
  · have hro := truthy_of_jget_truthy hm
    have hcond : (truthy (jget j "response") &&
        !(truthy (data1of j) && truthy (jget (data1of j) "answer")) &&
        truthy (jget (jget j "response") "message")) = true := by
      simp [hro, hm, ha1]
    have hbr := data2of_eq_branch hcond
    simp only [stageMessage, hm, if_true] at h2
    by_cases hpa :
        truthy (jget (safeParseResult (jget (jget j "response") "message")) "answer") = true
    · simp [hpa] at h2
    · simp only [Bool.not_eq_true] at hpa
      simp only [hpa, Bool.false_eq_true, if_false] at h2
      rw [hbr, if_neg (by simp [hpa])]
      cases hmv : jget (jget j "response") "message" with
      | str s =>
        rw [hmv] at h2 hm
        have hs : ¬(s = "") := by simpa [truthy] using hm
        simp [hs] at h2
      | undef => rfl
      | jsNull => rfl
      | bool b => rfl
      | num n => rfl
      | arr es => rfl
      | obj fs => rfl
  · simp only [Bool.not_eq_true] at hm
    exact data2of_skip (by simp [hm])

/-- A matching probe stage pins the candidate's answer after the alternate
keys step. -/
theorem s3some {j v : JsVal} (h1 : stageResultAnswer j = none)
    (h2 : stageMessage j = none) (h3 : stageTextKeys j = some v) :
    jget (data3of j) "answer" = v ∧ truthy v = true := by
  have hd2 := d2_eq_of_none h1 h2
  have ha1 := s1none h1
  by_cases htr : truthy (jget (jget j "response") "result") = true
  · have hro := truthy_of_jget_truthy htr
    have hd1 := data1of_eq htr
    simp only [stageTextKeys, htr, if_true] at h3
    by_cases hdt : (truthy (safeParseResult (jget (jget j "response") "result")) &&
        !truthy (jget (safeParseResult (jget (jget j "response") "result")) "answer")) = true
    · simp only [hdt, if_true] at h3
      obtain ⟨hv, hset⟩ := probeTextKeys_some h3
      simp only [Bool.and_eq_true, Bool.not_eq_true'] at hdt
      have hcond : (truthy (jget j "response") && truthy (data2of j) &&
          !truthy (jget (data2of j) "answer")) = true := by
        rw [hd2, hd1]
        simp [hro, hdt.1, hdt.2]
      have hprobe : probeTextKeys (data2of j) = some v := by rw [hd2, hd1]; exact h3
      refine ⟨?_, hv⟩
      rw [data3of_eq_branch hcond, hprobe, hd2, hd1]
      exact hset
    · simp only [Bool.not_eq_true] at hdt
      simp [hdt] at h3
  · simp only [Bool.not_eq_true] at htr
    simp [stageTextKeys, htr] at h3

/-- When none of the first three stages matches, the probe leaves the
candidate unchanged. -/
theorem d3_eq_of_none {j : JsVal} (h1 : stageResultAnswer j = none)
    (h2 : stageMessage j = none) (h3 : stageTextKeys j = none) :
    data3of j = data2of j := by
  have hd2 := d2_eq_of_none h1 h2
  have ha1 := s1none h1
  by_cases hdt2 : truthy (data2of j) = true
  · have hd1t : truthy (data1of j) = true := by rw [← hd2]; exact hdt2
    have htr := result_truthy_of_data1 hd1t
    have hro := truthy_of_jget_truthy htr
    have hd1 := data1of_eq htr
    simp only [stageTextKeys, htr, if_true] at h3
    have hna : truthy (jget (data2of j) "answer") = false := by rw [hd2]; exact ha1
    have hsc : (truthy (safeParseResult (jget (jget j "response") "result")) &&
        !truthy (jget (safeParseResult (jget (jget j "response") "result")) "answer")) = true := by
      rw [← hd1, ← hd2]
      simp [hdt2, hna]
    simp only [hsc, if_true] at h3
    have hprobe : probeTextKeys (data2of j) = none := by rw [hd2, hd1]; exact h3
    have hcond : (truthy (jget j "response") && truthy (data2of j) &&
        !truthy (jget (data2of j) "answer")) = true := by
      simp [hro, hdt2, hna]
    rw [data3of_eq_branch hcond, hprobe]
  · simp only [Bool.not_eq_true] at hdt2
    exact data3of_skip (by simp [hdt2])

/-- A matching top-level stage pins the candidate's answer after path 3. -/
theorem s4some {j v : JsVal} (hpre : truthy (jget (data3of j) "answer") = false)
    (h4 : stageTopLevel j = some v) :
    jget (data4of j) "answer" = v ∧ truthy v = true := by
  have hbr := data4of_eq_branch
    (show (!(truthy (data3of j) && truthy (jget (data3of j) "answer"))) = true by simp [hpre])
  by_cases hja : truthy (jget j "answer") = true
  · simp only [stageTopLevel, hja, if_true] at h4
    by_cases hsa : truthy (jget (safeParseResult j) "answer") = true
    · simp only [hsa, if_true, Option.some.injEq] at h4
      subst h4
      rw [hbr, if_pos hja]
      exact ⟨rfl, hsa⟩
    · simp only [Bool.not_eq_true] at hsa
      simp [hsa] at h4
  · simp only [Bool.not_eq_true] at hja
    simp only [stageTopLevel, hja, Bool.false_eq_true, if_false] at h4
    rw [hbr, if_neg (by simp [hja])]
    by_cases hjt : truthy (jget j "text") = true
    · simp only [hjt, if_true, Option.some.injEq] at h4
      subst h4
      rw [if_pos hjt]
      exact ⟨jget_withAnswer _, hjt⟩
    · simp only [Bool.not_eq_true] at hjt
      simp only [hjt, Bool.false_eq_true, if_false] at h4
      rw [if_neg (by simp [hjt])]
      cases hmv : jget j "message" with
      | str s =>
        rw [hmv] at h4
        by_cases hs : s = ""
        · simp [hs] at h4
        · simp only [show (s == "") = false by simp [hs], Bool.not_false, if_true,
            Option.some.injEq] at h4
          subst h4
          refine ⟨?_, by simp [truthy, hs]⟩
          simp only [show (s == "") = false by simp [hs], Bool.not_false, if_true,
            jget_withAnswer]
      | undef => rw [hmv] at h4; simp at h4
      | jsNull => rw [hmv] at h4; simp at h4
      | bool b => rw [hmv] at h4; simp at h4
      | num n => rw [hmv] at h4; simp at h4
      | arr es => rw [hmv] at h4; simp at h4
      | obj fs => rw [hmv] at h4; simp at h4

/-- When the first four stages all fail, the candidate after path 3 still
has no truthy answer. -/
theorem a4_false_of_none {j : JsVal} (hpre : truthy (jget (data3of j) "answer") = false)
    (h4 : stageTopLevel j = none) :
    (truthy (data4of j) && truthy (jget (data4of j) "answer")) = false := by
  have hbr := data4of_eq_branch
    (show (!(truthy (data3of j) && truthy (jget (data3of j) "answer"))) = true by simp [hpre])
  by_cases hja : truthy (jget j "answer") = true
  · simp only [stageTopLevel, hja, if_true] at h4
    by_cases hsa : truthy (jget (safeParseResult j) "answer") = true
    · simp [hsa] at h4
    · simp only [Bool.not_eq_true] at hsa
      rw [hbr, if_pos hja]
      simp [hsa]
  · simp only [Bool.not_eq_true] at hja
    simp only [stageTopLevel, hja, Bool.false_eq_true, if_false] at h4
    rw [hbr, if_neg (by simp [hja])]
    by_cases hjt : truthy (jget j "text") = true
    · simp [hjt] at h4
    · simp only [Bool.not_eq_true] at hjt
      simp only [hjt, Bool.false_eq_true, if_false] at h4
      rw [if_neg (by simp [hjt])]
      cases hmv : jget j "message" with
      | str s =>
        rw [hmv] at h4
        by_cases hs : s = ""
        · simp only [hs, show (("" : String) == "") = true by rfl, Bool.not_true,
            Bool.false_eq_true, if_false]
          simp [hpre]
        · simp [hs] at h4
      | undef => simp [hpre]
      | jsNull => simp [hpre]
      | bool b => simp [hpre]
      | num n => simp [hpre]
      | arr es => simp [hpre]
      | obj fs => simp [hpre]

/-- A matching raw-response stage pins the candidate's final answer. -/
theorem s5some {j v : JsVal}
    (hpre : (truthy (data4of j) && truthy (jget (data4of j) "answer")) = false)
    (h5 : stageRaw j = some v) :
    jget (data5of j) "answer" = v ∧ truthy v = true := by
  by_cases hraw : truthy (jget j "raw_response") = true
  · have hbr := data5of_eq_branch
      (show (!(truthy (data4of j) && truthy (jget (data4of j) "answer")) &&
        truthy (jget j "raw_response")) = true by simp [hpre, hraw])
    simp only [stageRaw, hraw, if_true] at h5
    by_cases hra : truthy (jget (safeParseResult (jget j "raw_response")) "answer") = true
    · simp only [hra, if_true, Option.some.injEq] at h5
      subst h5
      rw [hbr, if_pos hra]
      exact ⟨rfl, hra⟩
    · simp only [Bool.not_eq_true] at hra
      simp only [hra, Bool.false_eq_true, if_false] at h5
      rw [hbr, if_neg (by simp [hra])]
      cases hmv : jget j "raw_response" with
      | str s =>
        rw [hmv] at h5 hraw
        simp only [Option.some.injEq] at h5
        subst h5
        exact ⟨jget_withAnswer _, by simpa [truthy] using hraw⟩
      | undef => rw [hmv] at h5; simp at h5
      | jsNull => rw [hmv] at h5; simp at h5
      | bool b => rw [hmv] at h5; simp at h5
      | num n => rw [hmv] at h5; simp at h5
      | arr es => rw [hmv] at h5; simp at h5
      | obj fs => rw [hmv] at h5; simp at h5
  · simp only [Bool.not_eq_true] at hraw
    simp [stageRaw, hraw] at h5

/-- A falsy payload matches no stage. -/
theorem stagesFirst_none_of_falsy {j : JsVal} (h : truthy j = false) :
    stagesFirst j = none := by
  cases j with
  | undef => rfl
  | jsNull => rfl
  | bool b => rfl
  | num n => rfl
  | str s => rfl
  | arr es => exact absurd h (by simp [truthy])
  | obj fs => exact absurd h (by simp [truthy])

/-- The earliest matching stage determines the chosen candidate's truthy
answer. -/
theorem stages_answer {j v : JsVal} (h : stagesFirst j = some v) :
    truthy v = true ∧ truthy (extractData j) = true ∧ jget (extractData j) "answer" = v := by
  have hED : extractData j = data5of j := rfl
  cases h1 : stageResultAnswer j with
  | some v1 =>
    simp only [stagesFirst, h1, Option.orElse, Option.some.injEq] at h
    subst h
    obtain ⟨ha, hv⟩ := s1some h1
    have h2 := data2of_stable (show truthy (jget (data1of j) "answer") = true by
      rw [ha]; exact hv)
    have h3 := data3of_stable (show truthy (jget (data2of j) "answer") = true by
      rw [h2, ha]; exact hv)
    have h4 := data4of_stable (show truthy (jget (data3of j) "answer") = true by
      rw [h3, h2, ha]; exact hv)
    have h5 := data5of_stable (show truthy (jget (data4of j) "answer") = true by
      rw [h4, h3, h2, ha]; exact hv)
    refine ⟨hv, ?_, ?_⟩
    · rw [hED, h5, h4, h3, h2]
      exact truthy_of_jget_truthy (by rw [ha]; exact hv)
    · rw [hED, h5, h4, h3, h2, ha]
  | none =>
    cases h2s : stageMessage j with
    | some v2 =>
      simp only [stagesFirst, h1, h2s, Option.orElse, Option.some.injEq] at h
      subst h
      obtain ⟨ha, hv⟩ := s2some h1 h2s
      have h3 := data3of_stable (show truthy (jget (data2of j) "answer") = true by
        rw [ha]; exact hv)
      have h4 := data4of_stable (show truthy (jget (data3of j) "answer") = true by
        rw [h3, ha]; exact hv)
      have h5 := data5of_stable (show truthy (jget (data4of j) "answer") = true by
        rw [h4, h3, ha]; exact hv)
      refine ⟨hv, ?_, ?_⟩
      · rw [hED, h5, h4, h3]
        exact truthy_of_jget_truthy (by rw [ha]; exact hv)
      · rw [hED, h5, h4, h3, ha]
    | none =>
      cases h3s : stageTextKeys j with
      | some v3 =>
        simp only [stagesFirst, h1, h2s, h3s, Option.orElse, Option.some.injEq] at h
        subst h
        obtain ⟨ha, hv⟩ := s3some h1 h2s h3s
        have h4 := data4of_stable (show truthy (jget (data3of j) "answer") = true by
          rw [ha]; exact hv)
        have h5 := data5of_stable (show truthy (jget (data4of j) "answer") = true by
          rw [h4, ha]; exact hv)
        refine ⟨hv, ?_, ?_⟩
        · rw [hED, h5, h4]
          exact truthy_of_jget_truthy (by rw [ha]; exact hv)
        · rw [hED, h5, h4, ha]
      | none =>
        have hpre3 : truthy (jget (data3of j) "answer") = false := by
          rw [d3_eq_of_none h1 h2s h3s, d2_eq_of_none h1 h2s]
          exact s1none h1
        cases h4s : stageTopLevel j with
        | some v4 =>
          simp only [stagesFirst, h1, h2s, h3s, h4s, Option.orElse, Option.some.injEq] at h
          subst h
          obtain ⟨ha, hv⟩ := s4some hpre3 h4s
          have h5 := data5of_stable (show truthy (jget (data4of j) "answer") = true by
            rw [ha]; exact hv)
          refine ⟨hv, ?_, ?_⟩
          · rw [hED, h5]
            exact truthy_of_jget_truthy (by rw [ha]; exact hv)
          · rw [hED, h5, ha]
        | none =>
          have hpre4 := a4_false_of_none hpre3 h4s
          cases h5s : stageRaw j with
          | some v5 =>
            simp only [stagesFirst, h1, h2s, h3s, h4s, h5s, Option.orElse,
              Option.some.injEq] at h
            subst h
            obtain ⟨ha, hv⟩ := s5some hpre4 h5s
            refine ⟨hv, ?_, ?_⟩
            · rw [hED]
              exact truthy_of_jget_truthy (by rw [ha]; exact hv)
            · rw [hED, ha]
          | none =>
            simp [stagesFirst, h1, h2s, h3s, h4s, h5s, Option.orElse] at h

/-- C1 (amended): the normalizer resolves the answer by first match over the
stages in the order the code actually probes them — the parsed
`response.result`'s own `answer`, then `response.message`, then the
alternate-key probe of the `response.result` candidate, then top-level
`answer`/`text`/`message`, then `raw_response` — and whenever some stage
matches and the function returns without throwing, the returned `answer` is
exactly the earliest matching stage's value, which is truthy (non-empty);
the end-to-end payload with a stringified `result` yields answer `"Hi"` and
confidence `"high"`. -/
theorem C1_amended_first_match :
    (∀ (j v : JsVal) (r : ParsedResponse), stagesFirst j = some v →
       deepExtractResponse j = some r → r.answer = v ∧ truthy v = true) ∧
    deepExtractResponse (.obj [("response", .obj [("result",
      .str "\x7b\"answer\":\"Hi\",\"confidence\":\"HIGH\"\x7d")])]) =
      some ⟨.str "Hi", [], "compliant", [], "high", []⟩ := by
  constructor
  · intro j v r hs hr
    obtain ⟨hv, hdt, hans⟩ := stages_answer hs
    have hj : truthy j = true := by
      by_contra hj
      simp only [Bool.not_eq_true] at hj
      rw [stagesFirst_none_of_falsy hj] at hs
      cases hs
    simp only [deepExtractResponse, hj, Bool.not_true, Bool.false_eq_true, if_false,
      hdt] at hr
    cases hcs : toLowerCaseJs (orTruthy (jget (extractData j) "compliance_status")
        (.str "compliant")) with
    | none => rw [hcs] at hr; simp at hr
    | some cs =>
      cases hcf : toLowerCaseJs (orTruthy (jget (extractData j) "confidence")
          (.str "medium")) with
      | none => rw [hcs, hcf] at hr; simp at hr
      | some cf =>
        rw [hcs, hcf] at hr
        simp only [Option.some.injEq] at hr
        subst hr
        refine ⟨?_, hv⟩
        show answerChain (extractData j) = v
        simp [answerChain, firstTruthyJs, hans, hv]
  · rfl

/-- Counterexample for C1 as stated: on the payload whose `response.result`
resolves through the alternate-key probe (spec path 1) while
`response.message` is also present, the code returns the message text, not
the earlier path's resolved text. -/
theorem C1_counterexample :
    specPathOneResolved (.obj [("response", .obj [("result", .obj [("text", .str "T")]),
      ("message", .str "M")])]) = some (.str "T") ∧
    (deepExtractResponse (.obj [("response", .obj [("result", .obj [("text", .str "T")]),
      ("message", .str "M")])])).map ParsedResponse.answer = some (.str "M") ∧
    ¬((JsVal.str "M") = JsVal.str "T") := by
  refine ⟨rfl, rfl, ?_⟩
  intro h
  injection h with h2
  exact absurd h2 (by decide)

/-- Witness for the amended C1 at a payload whose earliest matching stage is
the message stage. -/
theorem C1_witness :
    ParsedResponse.answer ⟨.str "M", [], "compliant", [], "medium", []⟩ = .str "M" ∧
    truthy (.str "M") = true :=
  C1_amended_first_match.1 (.obj [("response", .obj [("message", .str "M")])])
    (.str "M") ⟨.str "M", [], "compliant", [], "medium", []⟩ rfl rfl

end MedRag
